import Mathlib

/-
Verification development for the mailer-backend repository.

The repository is a Go service (package mail-manager) that manages HTML
email templates, inline images, and bulk personalized email sends.  This
file embeds the core of `internal/email/template.go`,
`internal/web/handlers.go` and the SMTP dispatch loop as executable Lean
definitions and proves properties of them.

External libraries used by the source are modelled as follows:
- `golang.org/x/crypto/sha3` (used by `hashString`) is embedded as a full
  executable SHA3-512 (Keccak-f[1600], rate 72 bytes, domain suffix 0x06),
  checked below against the FIPS 202 test vector for the empty message.
- `html/template` execution is modelled by a small node language whose
  directive nodes (`image`, `imageWithSize`, `property`) are translated
  from the closures in `RenderTemplate`; plain engine behaviour
  (literal text, field substitution, an action whose evaluation errors)
  is represented by the remaining node constructors.  A directive used
  inside a `src="..."` attribute is a distinct node, because there the
  engine's contextual autoescaping applies its URL filter to the value
  (a `template.HTML` value is not exempt in URL context) and replaces an
  unsafe value with `#ZgotmplZ`; the filter is embedded below from the
  stdlib's `urlFilter`/`isSafeURL`.
- `github.com/vanng822/go-premailer` and the SMTP transport are modelled
  as outcome parameters, since the source treats them as black boxes.
-/

namespace Mailer

/-! ## SHA3-512 (model of golang.org/x/crypto/sha3, as called by hashString) -/

/-- 64-bit mask. -/
def mask64 : Nat := 0xffffffffffffffff

/-- Left-rotate a 64-bit word by `n` (0 ≤ n < 64). -/
def rotl64 (x n : Nat) : Nat :=
  ((x <<< n) ||| (x >>> (64 - n))) &&& mask64

/-- One step of the degree-8 LFSR of FIPS 202 section 3.2.5
(feedback polynomial x^8 + x^6 + x^5 + x^4 + 1). -/
def lfsrStep (r : Nat) : Nat :=
  ((r <<< 1) ^^^ ((r >>> 7) * 0x71)) &&& 0xff

/-- LFSR state after `t` steps, starting from 1. -/
def lfsrAt : Nat → Nat
  | 0 => 1
  | t + 1 => lfsrStep (lfsrAt t)

/-- Round constant RC[i]: bit 2^j - 1 is rc(7i + j) for j = 0..6. -/
def rcWord (i : Nat) : Nat :=
  (List.range 7).foldl
    (fun acc j => acc ||| ((lfsrAt (7 * i + j) &&& 1) <<< (2 ^ j - 1))) 0

/-- Keccak round constants, derived from the LFSR. -/
def keccakRC : List Nat :=
  (List.range 24).map rcWord

/-- The ρ walk: starting from lane (1,0), step t assigns rotation
(t+1)(t+2)/2 mod 64 and moves to (y, 2x+3y mod 5). -/
def rhoPairsGo (x y t fuel : Nat) : List (Nat × Nat) :=
  match fuel with
  | 0 => []
  | f + 1 =>
    (x + 5 * y, ((t + 1) * (t + 2) / 2) % 64) ::
      rhoPairsGo y ((2 * x + 3 * y) % 5) (t + 1) f

/-- Rotation offsets for lane x + 5*y (lane (0,0) rotates by 0). -/
def rhoOffsets : List Nat :=
  let pairs := rhoPairsGo 1 0 0 24
  (List.range 25).map fun i =>
    ((pairs.find? fun p => p.1 == i).map Prod.snd).getD 0

/-- Lane A[x, y] of a 25-lane state (index x + 5y), coordinates mod 5. -/
def lane (A : List Nat) (x y : Nat) : Nat :=
  A.getD (x % 5 + 5 * (y % 5)) 0

/-- Keccak θ step. -/
def theta (A : List Nat) : List Nat :=
  let C := (List.range 5).map fun x =>
    lane A x 0 ^^^ lane A x 1 ^^^ lane A x 2 ^^^ lane A x 3 ^^^ lane A x 4
  let D := (List.range 5).map fun x =>
    C.getD ((x + 4) % 5) 0 ^^^ rotl64 (C.getD ((x + 1) % 5) 0) 1
  (List.range 25).map fun i => A.getD i 0 ^^^ D.getD (i % 5) 0

/-- Keccak ρ and π steps combined: B[x', y'] = rotl(A[x' + 3y', x'], r). -/
def rhoPi (A : List Nat) : List Nat :=
  (List.range 25).map fun j =>
    let xp := j % 5
    let yp := j / 5
    let x := (xp + 3 * yp) % 5
    let y := xp
    rotl64 (lane A x y) (rhoOffsets.getD (x % 5 + 5 * (y % 5)) 0)

/-- Keccak χ step. -/
def chi (A : List Nat) : List Nat :=
  (List.range 25).map fun j =>
    let x := j % 5
    let y := j / 5
    lane A x y ^^^ ((lane A (x + 1) y ^^^ mask64) &&& lane A (x + 2) y)

/-- Keccak ι step. -/
def iota (A : List Nat) (rc : Nat) : List Nat :=
  match A with
  | [] => []
  | a :: rest => (a ^^^ rc) :: rest

/-- One Keccak round. -/
def keccakRound (A : List Nat) (rc : Nat) : List Nat :=
  iota (chi (rhoPi (theta A))) rc

/-- Keccak-f[1600]: 24 rounds. -/
def keccakF (A : List Nat) : List Nat :=
  keccakRC.foldl keccakRound A

/-- A little-endian 64-bit lane from a list of at most 8 bytes. -/
def laneOfBytes (bs : List Nat) : Nat :=
  bs.foldr (fun b acc => b + 256 * acc) 0

/-- Split a byte list into groups of `n` bytes (fuel-based recursion). -/
def chunksGo (n : Nat) : Nat → List Nat → List (List Nat)
  | 0, _ => []
  | _, [] => []
  | fuel + 1, bs => bs.take n :: chunksGo n fuel (bs.drop n)

/-- Split a byte list into groups of `n` bytes. -/
def chunks (n : Nat) (bs : List Nat) : List (List Nat) :=
  chunksGo n bs.length bs

/-- XOR a 72-byte rate block into the state and run the permutation. -/
def absorbBlock (A : List Nat) (block : List Nat) : List Nat :=
  let lanes := (chunks 8 block).map laneOfBytes
  keccakF ((List.range 25).map fun i => A.getD i 0 ^^^ lanes.getD i 0)

/-- SHA3 multi-rate padding for rate 72 with domain suffix 0x06. -/
def sha3Pad (bs : List Nat) : List Nat :=
  let p := 72 - bs.length % 72
  if p = 1 then bs ++ [0x86]
  else bs ++ 0x06 :: (List.replicate (p - 2) 0 ++ [0x80])

/-- SHA3-512 digest (64 bytes) of a byte message. -/
def sha3_512 (msg : List Nat) : List Nat :=
  let A := (chunks 72 (sha3Pad msg)).foldl absorbBlock (List.replicate 25 0)
  (List.range 64).map fun k => (A.getD (k / 8) 0 >>> (8 * (k % 8))) &&& 255

/-- UTF-8 encoding of one character (Go `[]byte(s)` is UTF-8). -/
def utf8Char (c : Char) : List Nat :=
  let n := c.toNat
  if n < 0x80 then [n]
  else if n < 0x800 then
    [0xc0 ||| (n >>> 6), 0x80 ||| (n &&& 0x3f)]
  else if n < 0x10000 then
    [0xe0 ||| (n >>> 12), 0x80 ||| ((n >>> 6) &&& 0x3f), 0x80 ||| (n &&& 0x3f)]
  else
    [0xf0 ||| (n >>> 18), 0x80 ||| ((n >>> 12) &&& 0x3f),
     0x80 ||| ((n >>> 6) &&& 0x3f), 0x80 ||| (n &&& 0x3f)]

/-- UTF-8 bytes of a string. -/
def utf8Bytes (s : String) : List Nat :=
  s.data.flatMap utf8Char

/-- Lowercase hexadecimal digit, as produced by Go `fmt %x`. -/
def hexChar (n : Nat) : Char :=
  if n = 0 then '0' else if n = 1 then '1' else if n = 2 then '2'
  else if n = 3 then '3' else if n = 4 then '4' else if n = 5 then '5'
  else if n = 6 then '6' else if n = 7 then '7' else if n = 8 then '8'
  else if n = 9 then '9' else if n = 10 then 'a' else if n = 11 then 'b'
  else if n = 12 then 'c' else if n = 13 then 'd' else if n = 14 then 'e'
  else if n = 15 then 'f' else '0'

/-- Lowercase hex string of a byte list, as produced by Go `fmt %x`. -/
def hexOfBytes (bs : List Nat) : String :=
  ⟨bs.flatMap fun b => [hexChar (b / 16), hexChar (b % 16)]⟩

/-- Embeds `hashString` (template.go lines 161-165):
SHA3-512 of the UTF-8 bytes of `s`, written as lowercase hex. -/
def hashString (s : String) : String :=
  hexOfBytes (sha3_512 (utf8Bytes s))

set_option maxRecDepth 100000

/-! ## Go standard-library path and string helpers used by the source -/

/-- One step of scanning for a file extension: a dot restarts the candidate
extension, a path separator clears it, any other character extends a
candidate that has already started.  Folding this models Go's
`filepath.Ext`, which scans the final path element backwards to the
last dot. -/
def extStep (acc : List Char) (c : Char) : List Char :=
  if c = '.' then ['.']
  else if c = '/' then []
  else
    match acc with
    | [] => []
    | _ :: _ => acc ++ [c]

/-- Characters of `filepath.Ext`. -/
def goExtChars (cs : List Char) : List Char :=
  cs.foldl extStep []

/-- Embeds Go `filepath.Ext`: the suffix beginning at the final dot in the
final slash-separated element of the path; empty if there is no dot. -/
def goExt (s : String) : String :=
  ⟨goExtChars s.data⟩

/-- Embeds the Go slice expression `s[1:]`: out-of-range (a panic in Go)
when `s` is empty, otherwise `s` without its first character. -/
def goSliceFrom1 (s : String) : Option String :=
  match s.data with
  | [] => none
  | _ :: rest => some ⟨rest⟩

/-- Splits a character list on `/`, keeping empty components (the
character-level equivalent of splitting a path into elements). -/
def splitSlash : List Char → List (List Char)
  | [] => [[]]
  | c :: rest =>
    match splitSlash rest with
    | [] => [[c]]
    | cur :: more => if c = '/' then [] :: cur :: more else (c :: cur) :: more

/-- Joins path components with `/`. -/
def joinSlash : List (List Char) → List Char
  | [] => []
  | [x] => x
  | x :: xs => x ++ '/' :: joinSlash xs

/-- Embeds Go `path.Clean` (lexical cleaning: collapse slashes, drop `.`
elements, resolve `..` against preceding elements, keep leading `..` of
relative paths, return "." for an empty result). -/
def pathClean (p : String) : String :=
  if p = "" then "."
  else
    let rooted := p.data.head? == some '/'
    let comps := (splitSlash p.data).filter fun c => c ≠ [] ∧ c ≠ ['.']
    let out := (comps.foldl (fun acc c =>
      if c = ['.', '.'] then
        match acc with
        | [] => if rooted then [] else [c]
        | x :: rest => if x = ['.', '.'] then c :: x :: rest else rest
      else c :: acc) []).reverse
    let s := joinSlash out
    if rooted then ⟨'/' :: s⟩
    else if s = [] then "." else ⟨s⟩

/-- Embeds Go `filepath.Join` of two nonempty elements on Unix:
clean of the slash-joined elements. -/
def goJoin (a b : String) : String :=
  pathClean (a ++ "/" ++ b)

/-- Whether the string contains a `/` (Go `strings.Contains(s, "/")`). -/
def hasSlash (s : String) : Bool :=
  s.data.contains '/'

/-- Whether `needle` occurs at the head of `hay`. -/
def beginsWith : List Char → List Char → Bool
  | [], _ => true
  | _ :: _, [] => false
  | a :: as, b :: bs => a == b && beginsWith as bs

/-- Whether `needle` occurs as a contiguous substring of `hay`. -/
def hasSubList (needle : List Char) : List Char → Bool
  | [] => beginsWith needle []
  | c :: rest => beginsWith needle (c :: rest) || hasSubList needle rest

/-- Whether string `needle` occurs as a substring of `hay`. -/
def strHasSub (hay needle : String) : Bool :=
  hasSubList needle.data hay.data

/-! ## template.go: attachments, image directives, the template store -/

/-- Embeds the fields of `email.Attachment` set by the image directives
(template.go lines 79-85 and 104-110): `Filename`, `Content`,
`HTMLRelated`, `ContentType` and the `Content-ID` MIME header value. -/
structure Attachment where
  filename : String
  content : List Nat
  htmlRelated : Bool
  contentType : String
  contentID : String
  deriving DecidableEq

/-- Result of `os.Stat` followed by `os.ReadFile` on an image path:
the file is missing (`Stat` fails), unreadable (`ReadFile` fails),
or readable with the given bytes. -/
inductive FileResult where
  | missing
  | unreadable
  | content (bytes : List Nat)
  deriving DecidableEq

/-- The image directory, as the outcome of statting/reading each name. -/
def ImageFS : Type :=
  String → FileResult

/-- The `<img>` fragment emitted by the `image` directive
(template.go line 86). -/
def imgFragment (src : String) : String :=
  "<img src=\"cid:" ++ src ++ "\" alt=\"" ++ src ++ "\">"

/-- The `<img>` fragment emitted by the `imageWithSize` directive
(template.go line 111). -/
def imgFragmentSized (src w h : String) : String :=
  "<img src=\"cid:" ++ src ++ "\" alt=\"" ++ src ++ "\" width=\"" ++ w ++
    "\" height=\"" ++ h ++ "\">"

/-- Embeds the `image` closure of `RenderTemplate` (template.go lines
62-87).  Returns the emitted HTML fragment and the attachment appended, or
`none` for the Go panic when `filepath.Ext(imageSrc)[1:]` slices an empty
extension while the `ContentType` field is computed. -/
def imageDirective (fs : ImageFS) (ref : String) :
    Option (String × Option Attachment) :=
  match fs ref with
  | .missing => some ("Image not found: " ++ ref, none)
  | .unreadable => some ("Failed to read image: " ++ ref, none)
  | .content bytes =>
    let ext := goExt ref
    let src := hashString ref ++ ext
    match goSliceFrom1 (goExt src) with
    | none => none
    | some sub =>
      some (imgFragment src,
        some { filename := src, content := bytes, htmlRelated := true,
               contentType := "image/" ++ sub,
               contentID := "<" ++ src ++ ">" })

/-- Embeds the `imageWithSize` closure of `RenderTemplate` (template.go
lines 88-112): the attachment name is the hash of the reference alone,
then a literal hyphen, the width string, and the extension. -/
def imageWithSizeDirective (fs : ImageFS) (ref w h : String) :
    Option (String × Option Attachment) :=
  match fs ref with
  | .missing => some ("Image not found: " ++ ref, none)
  | .unreadable => some ("Failed to read image: " ++ ref, none)
  | .content bytes =>
    let ext := goExt ref
    let src := hashString ref ++ "-" ++ w ++ ext
    match goSliceFrom1 (goExt src) with
    | none => none
    | some sub =>
      some (imgFragmentSized src w h,
        some { filename := src, content := bytes, htmlRelated := true,
               contentType := "image/" ++ sub,
               contentID := "<" ++ src ++ ">" })

/-- Lowercases one ASCII letter (for the scheme comparison of
`strings.EqualFold` on the literal schemes below). -/
def asciiLower (c : Char) : Char :=
  if 'A' ≤ c ∧ c ≤ 'Z' then Char.ofNat (c.toNat + 32) else c

/-- The characters before the first colon, when one exists
(Go `strings.Cut(s, ":")`). -/
def splitAtColon : List Char → Option (List Char)
  | [] => none
  | c :: rest =>
    if c = ':' then some [] else (splitAtColon rest).map (c :: ·)

/-- Embeds html/template's `isSafeURL`: when the string has a scheme (a
colon whose prefix contains no slash), it is safe only if the scheme is
`http`, `https` or `mailto`, case-insensitively; otherwise safe. -/
def isSafeURL (s : String) : Bool :=
  match splitAtColon s.data with
  | none => true
  | some protocol =>
    if protocol.contains '/' then true
    else
      let p := protocol.map asciiLower
      p == "http".data || p == "https".data || p == "mailto".data

/-- Embeds html/template's `urlFilter` on a value whose content type is
not `template.URL` (a `template.HTML` value included): an unsafe URL is
replaced by `#ZgotmplZ`.  The engine's subsequent urlnormalizer and
attribute-escaper steps are the identity on the outputs arising in this
development. -/
def urlFilterGo (s : String) : String :=
  if isSafeURL s then s else "#ZgotmplZ"

/-- Node language for a parsed template.  `text` is literal markup;
`nameField`, `emailField`, `yearField` are the `{{.name}}`, `{{.email}}`,
`{{.year}}` substitutions against the data map built by `EmailHandler`;
the three directive nodes are the template functions bound in
`RenderTemplate`, used in plain HTML text context where the engine
splices a `template.HTML` value verbatim; `imageInSrcAttr` is the
`image` directive used inside a `src="..."` attribute, where the engine
applies the URL filter to the value before splicing; `failingAction`
stands for any engine action whose execution returns an error, making
`tmpl.Execute` fail. -/
inductive Node where
  | text (s : String)
  | nameField
  | emailField
  | yearField
  | property (key : String)
  | image (ref : String)
  | imageWithSize (ref w h : String)
  | imageInSrcAttr (ref : String)
  | failingAction
  deriving DecidableEq

/-- Render context: the data map `{name, email, year, custom}` built per
recipient by `EmailHandler` (handlers.go lines 312-317). -/
structure Ctx where
  name : String
  email : String
  year : Nat
  custom : List (String × String)

/-- Embeds the `property` closure (template.go lines 113-122): the value
under `key` in the custom map, or the empty string. -/
def lookupCustom (custom : List (String × String)) (key : String) : String :=
  match custom.find? (fun p => p.1 == key) with
  | some p => p.2
  | none => ""

/-- Executes the node list, accumulating the output buffer and the
attachment list exactly as `tmpl.Execute` does with the closures of
`RenderTemplate`.  Returns `none` on a directive panic; otherwise the
partial buffer, the attachments appended so far, and whether execution
stopped with an error. -/
def execNodes (fs : ImageFS) (ctx : Ctx) :
    List Node → String → List Attachment →
    Option (String × List Attachment × Bool)
  | [], buf, atts => some (buf, atts, false)
  | .text s :: rest, buf, atts => execNodes fs ctx rest (buf ++ s) atts
  | .nameField :: rest, buf, atts => execNodes fs ctx rest (buf ++ ctx.name) atts
  | .emailField :: rest, buf, atts => execNodes fs ctx rest (buf ++ ctx.email) atts
  | .yearField :: rest, buf, atts =>
    execNodes fs ctx rest (buf ++ toString ctx.year) atts
  | .property k :: rest, buf, atts =>
    execNodes fs ctx rest (buf ++ lookupCustom ctx.custom k) atts
  | .image ref :: rest, buf, atts =>
    match imageDirective fs ref with
    | none => none
    | some (frag, none) => execNodes fs ctx rest (buf ++ frag) atts
    | some (frag, some att) => execNodes fs ctx rest (buf ++ frag) (atts ++ [att])
  | .imageWithSize ref w h :: rest, buf, atts =>
    match imageWithSizeDirective fs ref w h with
    | none => none
    | some (frag, none) => execNodes fs ctx rest (buf ++ frag) atts
    | some (frag, some att) => execNodes fs ctx rest (buf ++ frag) (atts ++ [att])
  | .imageInSrcAttr ref :: rest, buf, atts =>
    match imageDirective fs ref with
    | none => none
    | some (frag, none) =>
      execNodes fs ctx rest (buf ++ ("src=\"" ++ urlFilterGo frag ++ "\"")) atts
    | some (frag, some att) =>
      execNodes fs ctx rest (buf ++ ("src=\"" ++ urlFilterGo frag ++ "\""))
        (atts ++ [att])
  | .failingAction :: _, buf, atts => some (buf, atts, true)

/-- The template map of `TemplateManager`: parsed templates by name. -/
def TStore : Type :=
  String → Option (List Node)

/-- Error taxonomy of `RenderTemplate`. -/
inductive RenderErr where
  | notFound (name : String)
  | execFailed (name : String)
  deriving DecidableEq

/-- Embeds `RenderTemplate` (template.go lines 53-129): not-found when the
name is absent; on execution failure the partial buffer and the
attachments appended so far are discarded and `("", nil, error)` is
returned; on success the buffer and attachment list are returned.
`none` models a directive panic escaping the call. -/
def renderTemplate (store : TStore) (fs : ImageFS) (name : String)
    (ctx : Ctx) : Option (String × List Attachment × Option RenderErr) :=
  match store name with
  | none => some ("", [], some (.notFound name))
  | some nodes =>
    match execNodes fs ctx nodes "" [] with
    | none => none
    | some (buf, atts, failed) =>
      if failed then some ("", [], some (.execFailed name))
      else some (buf, atts, none)

/-- Embeds `LoadTemplate` (template.go lines 36-50) with the parse step
(stdlib `template.ParseFiles`) as an outcome parameter: on parse error the
error is returned and the store is untouched; on success the entry under
`name` is replaced. -/
def loadTemplate (store : TStore) (name filename : String)
    (parsed : Except String (List Node)) : TStore × Option String :=
  match parsed with
  | .error e =>
    (store, some ("failed to parse template file " ++ filename ++ ": " ++ e))
  | .ok t => (fun n => if n = name then some t else store n, none)

/-! ## handlers.go: the bulk-send pipeline (`EmailHandler`) -/

/-- A recipient record of the `/api/email` request body. -/
structure RecipientInfo where
  name : String
  email : String
  custom : List (String × String)
  deriving DecidableEq

/-- The decoded `/api/email` request body. -/
structure EmailRequest where
  template : String
  subject : String
  recipient : List RecipientInfo
  deriving DecidableEq

/-- Outcome of the premailer calls on a rendered body:
`NewPremailerFromString` fails, `Transform` fails (returning the
zero-value string), or inlining succeeds with the given HTML. -/
inductive PremailerOutcome where
  | createErr
  | transformErr
  | ok (html : String)
  deriving DecidableEq

/-- Observable actions of one recipient's pipeline in the `EmailHandler`
goroutine (handlers.go lines 310-341): the log lines it writes, each
transport invocation with the HTML body it sends, and each fixed backoff
sleep. -/
inductive Act where
  | logRenderFail (email : String)
  | logPremailerCreateFail (email : String)
  | logPremailerTransformFail (email : String)
  | sendAttempt (email : String) (attempt : Nat) (html : String)
  | logSendFail (email : String)
  | sleepBackoff (seconds : Nat)
  | logSendSuccess (email : String)
  deriving DecidableEq

/-- Whether an action is a transport invocation. -/
def isSendAttempt : Act → Bool
  | .sendAttempt _ _ _ => true
  | _ => false

/-- Number of transport invocations in a trace. -/
def sendCount (tr : List Act) : Nat :=
  (tr.filter isSendAttempt).length

/-- Embeds the retry loop `for i := 0; i < 10; i++` of `EmailHandler`
(handlers.go lines 332-339): attempt the send; on failure log, sleep the
fixed 10-second backoff and retry; on success break out. -/
def retryGo (send : Nat → Bool) (email htm : String) :
    Nat → Nat → List Act
  | _, 0 => []
  | i, r + 1 =>
    .sendAttempt email i htm ::
      if send i then []
      else .logSendFail email :: .sleepBackoff 10 ::
        retryGo send email htm (i + 1) r

/-- Embeds one iteration of the per-recipient loop in the `EmailHandler`
goroutine (handlers.go lines 311-341): render; on render error log and
continue; create the premailer; on creation error log and continue; run
`Transform`; on transform error log only (no `continue` in the source)
and fall through to the retry loop with the zero-value HTML; finally the
success log after the loop is unconditional.  `none` models a directive
panic crashing the goroutine. -/
def recipientTask (store : TStore) (fs : ImageFS)
    (pm : String → PremailerOutcome) (send : Nat → Bool)
    (tmplName : String) (year : Nat) (rec : RecipientInfo) :
    Option (List Act) :=
  let ctx : Ctx :=
    { name := rec.name, email := rec.email, year := year,
      custom := rec.custom }
  match renderTemplate store fs tmplName ctx with
  | none => none
  | some (_, _, some _) => some [.logRenderFail rec.email]
  | some (body, _, none) =>
    match pm body with
    | .createErr => some [.logPremailerCreateFail rec.email]
    | .transformErr =>
      some (.logPremailerTransformFail rec.email ::
        (retryGo send rec.email "" 0 10 ++ [.logSendSuccess rec.email]))
    | .ok htm =>
      some (retryGo send rec.email htm 0 10 ++ [.logSendSuccess rec.email])

/-- The whole goroutine body: the recipients processed in order, their
traces concatenated; a panic aborts the remainder of the batch. -/
def dispatchAll (store : TStore) (fs : ImageFS)
    (pm : String → PremailerOutcome) (send : String → Nat → Bool)
    (tmplName : String) (year : Nat) :
    List RecipientInfo → Option (List Act)
  | [] => some []
  | r :: rs =>
    match recipientTask store fs pm (send r.email) tmplName year r with
    | none => none
    | some tr =>
      (dispatchAll store fs pm send tmplName year rs).map fun rest =>
        tr ++ rest

/-- HTTP response of `EmailHandler` as seen by the caller. -/
inductive HandlerResp where
  | badRequest (msg : String)
  | okMessage (msg : String)
  deriving DecidableEq

/-- The accepted-count message written by `EmailHandler`
(handlers.go line 345). -/
def emailAccepted (n : Nat) : String :=
  "총 " ++ toString n ++ "명의 수신자에게 이메일을 발송합니다."

/-- Embeds `EmailHandler` (handlers.go lines 301-348) on a decoded POST
body: 400 when the template name, the subject, or the recipient list is
empty; otherwise the accepted-count response together with the goroutine
spawned for the batch.  The response component never depends on the
dispatch outcome. -/
def emailEndpoint (store : TStore) (fs : ImageFS)
    (pm : String → PremailerOutcome) (send : String → Nat → Bool)
    (year : Nat) (req : EmailRequest) :
    HandlerResp × Option (List Act) :=
  if req.template = "" ∨ req.subject = "" ∨ req.recipient.length = 0 then
    (.badRequest "필수 필드가 누락되었습니다.", none)
  else
    (.okMessage (emailAccepted req.recipient.length),
     dispatchAll store fs pm send req.template year req.recipient)

/-! ## handlers.go: name extraction for template and image handlers -/

/-- Embeds the name sanitization of `TemplateHandler` (handlers.go lines
88-97): clean the path-suffix, reject `.`, `/` and the empty name, and
reject any name still containing a `/`; `some` is the name used for the
filesystem path. -/
def templateNameOf (raw : String) : Option String :=
  let n := pathClean raw
  if n = "." ∨ n = "/" ∨ n = "" then none
  else if hasSlash n then none
  else some n

/-- Embeds the name sanitization shared by `ImageServeHandler`
(handlers.go lines 412-417) and `ImageDeleteHandler` (lines 453-458):
clean the path-suffix and reject only the empty name, `.` and `/`. -/
def imageNameOf (raw : String) : Option String :=
  let n := pathClean raw
  if n = "" ∨ n = "." ∨ n = "/" then none
  else some n

/-- The filesystem path `TemplateHandler` reads, writes or removes
(handlers.go lines 101, 132, 153), when the name passes the checks. -/
def templateFilePath (baseDir raw : String) : Option String :=
  (templateNameOf raw).map fun n => goJoin baseDir (n ++ ".html")

/-- The path handed to `http.ServeFile` by `ImageServeHandler`
(handlers.go lines 418-419), when the name passes the checks. -/
def imageServePath (imageDir raw : String) : Option String :=
  (imageNameOf raw).map (goJoin imageDir)

/-- The path handed to `os.Remove` by `ImageDeleteHandler`
(handlers.go lines 459-460), when the name passes the checks. -/
def imageDeletePath (imageDir raw : String) : Option String :=
  (imageNameOf raw).map (goJoin imageDir)

/-! ## The claim C1 comparison definition -/

/-- Follows the words of claim C1 and spec section 4.3, for comparison
with the source embedding: the hexadecimal SHA3-512 digest of the UTF-8
bytes of `ref` concatenated with the width string, followed by the
original file extension of `ref`. -/
def claimContentIDWithSize (ref w : String) : String :=
  hexOfBytes (sha3_512 (utf8Bytes (ref ++ w))) ++ goExt ref

/-- Helper: the filename of the attachment produced by the
`imageWithSize` directive, when one is produced. -/
def sizedAttachmentFilename (fs : ImageFS) (ref w h : String) :
    Option String :=
  match imageWithSizeDirective fs ref w h with
  | some (_, some a) => some a.filename
  | _ => none

/-- Helper: the content type of the attachment produced by the
`imageWithSize` directive, when one is produced. -/
def sizedAttachmentContentType (fs : ImageFS) (ref w h : String) :
    Option String :=
  match imageWithSizeDirective fs ref w h with
  | some (_, some a) => some a.contentType
  | _ => none

/-- The content type of the attachment produced by the `image` directive,
when one is produced. -/
def imageAttachmentContentType (fs : ImageFS) (ref : String) : Option String :=
  match imageDirective fs ref with
  | some (_, some a) => some a.contentType
  | _ => none

/-! ## Shared concrete instances used by witnesses and evaluations -/

/-- An empty template store. -/
def trivStore : TStore := fun _ => none

/-- An image directory with no readable files. -/
def trivFS : ImageFS := fun _ => FileResult.missing

/-- An image directory where reads fail after a successful stat. -/
def unreadableFS : ImageFS := fun _ => FileResult.unreadable

/-- A premailer that always succeeds with an empty result. -/
def trivPM : String → PremailerOutcome := fun _ => PremailerOutcome.ok ""

/-- A transport that always succeeds. -/
def trivSend : String → Nat → Bool := fun _ _ => true

/-- A store holding one trivial template under the name "t". -/
def oneStore : TStore := fun n => if n = "t" then some [Node.text "x"] else none

/-- The recipient used by the dispatcher evaluations. -/
def oneRec : RecipientInfo := { name := "u", email := "u@x", custom := [] }

/-- Store for the C8 witness: a template whose execution appends an
attachment and then fails. -/
def c8store : TStore :=
  fun n => if n = "d" then some [Node.image "logo.png", Node.failingAction] else none

/-- An image directory where every name reads as a one-byte file. -/
def c8fs : ImageFS := fun _ => FileResult.content [1]

/-- A sample render context. -/
def c8ctx : Ctx := { name := "N", email := "E", year := 2025, custom := [] }

/-- Store for the C6 witness: text around one image directive. -/
def c6store : TStore :=
  fun n => if n = "m" then some [Node.text "A", Node.image "pic.png", Node.text "B"] else none

/-- The claim C5 scenario template `default.html`:
`Hello {{.name}}, <img src="{{image "logo.png"}}">`.  The directive
sits inside the `src` attribute, so it is a URL-attribute-context use. -/
def c5store : TStore := fun n =>
  if n = "default.html" then
    some [Node.text "Hello ", Node.nameField, Node.text ", <img ",
          Node.imageInSrcAttr "logo.png", Node.text ">"]
  else none

/-- The claim C5 image directory: `logo.png` exists and is readable. -/
def c5fs : ImageFS :=
  fun r => if r = "logo.png" then FileResult.content [137, 80, 78, 71]
    else FileResult.missing

/-- The claim C5 recipient context. -/
def c5ctx : Ctx := { name := "Hong", email := "a@b.com", year := 2025, custom := [] }

instance :
    DecidableEq (Bool × Bool × Nat × List String × List String × Option RenderErr) :=
  instDecidableEqProd

/-! ## Lemmas about extensions, hex digests and string append -/

/-- FIPS 202 test vector: SHA3-512 of the empty message. -/
theorem sha3_512_empty_vector :
    hexOfBytes (sha3_512 []) =
      "a69f73cca23a9ac5c8b567dc185a756e97c982164fe25859e0d1dcc1475c80a615b2123af1f5f94c11e3e9402c3ac558f500199d95b6d3e301758586281dcd26" := by
  decide

/-- A character list free of dots and slashes (extension-neutral). -/
def noDotSlash (cs : List Char) : Prop :=
  ∀ c ∈ cs, c ≠ '.' ∧ c ≠ '/'

theorem str_data_append (a b : String) : (a ++ b).data = a.data ++ b.data :=
  rfl

theorem str_data_mk (l : List Char) : (⟨l⟩ : String).data = l :=
  rfl

theorem str_dash_data : ("-" : String).data = ['-'] :=
  rfl

theorem str_empty_data : ("" : String).data = [] :=
  rfl

theorem str_ext {a b : String} (h : a.data = b.data) : a = b := by
  cases a with
  | mk d1 => cases b with
    | mk d2 => exact congrArg String.mk h

theorem str_mk_data (s : String) : (⟨s.data⟩ : String) = s := by
  cases s; rfl

theorem goExt_eq_of_data {s : String} {t : List Char}
    (h : goExtChars s.data = t) : goExt s = ⟨t⟩ :=
  str_ext h

theorem goExt_eq_empty_of_data {s : String}
    (h : goExtChars s.data = []) : goExt s = "" :=
  str_ext h

theorem goExt_congr_data {s u : String}
    (h : goExtChars s.data = goExtChars u.data) : goExt s = goExt u :=
  str_ext h

theorem hexChar_ne (n : Nat) : hexChar n ≠ '.' ∧ hexChar n ≠ '/' := by
  by_cases hn : n < 16
  · interval_cases n <;> exact ⟨by decide, by decide⟩
  · have h0 : hexChar n = '0' := by
      unfold hexChar
      repeat rw [if_neg (by omega)]
    rw [h0]
    exact ⟨by decide, by decide⟩

theorem hexOfBytes_clean (bs : List Nat) : noDotSlash (hexOfBytes bs).data := by
  intro c hc
  simp only [hexOfBytes, List.mem_flatMap] at hc
  obtain ⟨b, _, hb⟩ := hc
  simp only [List.mem_cons, List.mem_singleton] at hb
  rcases hb with h | h | h
  · exact h ▸ hexChar_ne (b / 16)
  · exact h ▸ hexChar_ne (b % 16)
  · simp at h

theorem hashString_clean (s : String) : noDotSlash (hashString s).data :=
  hexOfBytes_clean _

theorem extStep_dot (acc : List Char) : extStep acc '.' = ['.'] := by
  simp [extStep]

theorem extStep_clean {c : Char} (h1 : c ≠ '.') (h2 : c ≠ '/') :
    ∀ acc, extStep acc c = match acc with | [] => [] | _ :: _ => acc ++ [c] := by
  intro acc
  simp [extStep, h1, h2]

theorem foldl_extStep_nil {cs : List Char} (h : noDotSlash cs) :
    List.foldl extStep [] cs = [] := by
  induction cs with
  | nil => rfl
  | cons c rest ih =>
    obtain ⟨h1, h2⟩ := h c (List.mem_cons_self c rest)
    have step : extStep [] c = [] := by rw [extStep_clean h1 h2]
    rw [List.foldl_cons, step]
    exact ih fun x hx => h x (List.mem_cons_of_mem c hx)

theorem foldl_extStep_keep {cs : List Char} (h : noDotSlash cs) :
    ∀ (a : Char) (acc : List Char),
      List.foldl extStep (a :: acc) cs = a :: acc ++ cs := by
  induction cs with
  | nil => intro a acc; simp
  | cons c rest ih =>
    intro a acc
    obtain ⟨h1, h2⟩ := h c (List.mem_cons_self c rest)
    have step : extStep (a :: acc) c = (a :: acc) ++ [c] := by
      rw [extStep_clean h1 h2]
    rw [List.foldl_cons, step, List.cons_append,
      ih (fun x hx => h x (List.mem_cons_of_mem c hx)) a (acc ++ [c])]
    simp

/-- Every reachable accumulator of the extension scan is empty or a dot
followed by dot-and-slash-free characters. -/
theorem foldl_extStep_shape (cs : List Char) :
    ∀ acc, (acc = [] ∨ ∃ t, acc = '.' :: t ∧ noDotSlash t) →
      (List.foldl extStep acc cs = [] ∨
        ∃ t, List.foldl extStep acc cs = '.' :: t ∧ noDotSlash t) := by
  induction cs with
  | nil => intro acc h; simpa using h
  | cons c rest ih =>
    intro acc h
    rw [List.foldl_cons]
    apply ih
    by_cases hdot : c = '.'
    · subst hdot
      right
      exact ⟨[], extStep_dot acc, by intro x hx; simp at hx⟩
    · by_cases hsl : c = '/'
      · subst hsl
        left
        simp [extStep, hdot]
      · rw [extStep_clean hdot hsl]
        rcases h with h | ⟨t, ht, hct⟩
        · subst h; left; rfl
        · subst ht
          right
          refine ⟨t ++ [c], by simp, ?_⟩
          intro x hx
          rcases List.mem_append.mp hx with hx | hx
          · exact hct x hx
          · simp only [List.mem_singleton] at hx
            exact hx ▸ ⟨hdot, hsl⟩

theorem goExtChars_shape (cs : List Char) :
    goExtChars cs = [] ∨ ∃ t, goExtChars cs = '.' :: t ∧ noDotSlash t :=
  foldl_extStep_shape cs [] (Or.inl rfl)

theorem goExtChars_append (xs ys : List Char) :
    goExtChars (xs ++ ys) = List.foldl extStep (goExtChars xs) ys :=
  List.foldl_append ..

/-- A dot-and-slash-free head is transparent to the extension scan. -/
theorem goExtChars_clean_append {xs : List Char} (h : noDotSlash xs)
    (ys : List Char) : goExtChars (xs ++ ys) = goExtChars ys := by
  rw [goExtChars_append, show goExtChars xs = [] from foldl_extStep_nil h]
  rfl

/-- Appending a well-formed extension makes it the extension of the whole. -/
theorem goExtChars_append_ext (xs : List Char) {t : List Char}
    (h : noDotSlash t) : goExtChars (xs ++ '.' :: t) = '.' :: t := by
  rw [goExtChars_append]
  show List.foldl extStep (extStep (goExtChars xs) '.') t = _
  rw [extStep_dot]
  have := foldl_extStep_keep h '.' []
  simpa using this

theorem goExt_empty_iff (s : String) : goExt s = "" ↔ goExtChars s.data = [] := by
  constructor
  · intro h
    have : (goExt s).data = ("" : String).data := by rw [h]
    simpa [goExt] using this
  · intro h
    apply str_ext
    simpa [goExt] using h

theorem goSliceFrom1_none_iff (s : String) :
    goSliceFrom1 s = none ↔ s = "" := by
  constructor
  · intro h
    apply str_ext
    show s.data = []
    cases hd : s.data with
    | nil => rfl
    | cons c cs =>
      unfold goSliceFrom1 at h
      rw [hd] at h
      exact Option.noConfusion h
  · intro h
    subst h
    rfl

theorem str_empty_append (s : String) : "" ++ s = s :=
  rfl

theorem str_append_assoc (a b c : String) : (a ++ b) ++ c = a ++ (b ++ c) :=
  str_ext (by simp [str_data_append, List.append_assoc])

/-! ## Claim theorems -/

/-- Claim C2: evaluation of the code at the failing input.  A recipient
whose rendered HTML makes the premailer `Transform` call fail is not
skipped: the dispatcher logs the transform failure and still performs a
transport send (with the zero-value HTML body), then logs success —
contradicting the claim that no transport send is attempted for that
recipient. -/
theorem C2_transform_failure_still_sends :
    recipientTask oneStore trivFS (fun _ => PremailerOutcome.transformErr)
        (fun _ => true) "t" 2025 oneRec =
      some [Act.logPremailerTransformFail "u@x", Act.sendAttempt "u@x" 0 "",
            Act.logSendSuccess "u@x"] ∧
    (recipientTask oneStore trivFS (fun _ => PremailerOutcome.transformErr)
        (fun _ => true) "t" 2025 oneRec).map sendCount = some 1 :=
  ⟨by decide, by decide⟩

/-- Claim C3: evaluation of the code at the failing input.  With a
transport that always fails, the transport is invoked exactly 10 times,
but the task then logs the success message (the log after the retry loop
is unconditional) instead of a final-failure log — contradicting the
claim that exhaustion is logged.  With a transport succeeding on the
first attempt, exactly one invocation happens. -/
theorem C3_retry_exhaustion_logs_success :
    (recipientTask oneStore trivFS (fun _ => PremailerOutcome.ok "h")
        (fun _ => false) "t" 2025 oneRec).map sendCount = some 10 ∧
    (recipientTask oneStore trivFS (fun _ => PremailerOutcome.ok "h")
        (fun _ => false) "t" 2025 oneRec).map (fun tr => tr.getLast?) =
      some (some (Act.logSendSuccess "u@x")) ∧
    (recipientTask oneStore trivFS (fun _ => PremailerOutcome.ok "h")
        (fun i => i == 0) "t" 2025 oneRec).map sendCount = some 1 :=
  ⟨by decide, by decide, by decide⟩

/-- Claim C5 counterexample: rendering
`Hello {{.name}}, <img src="{{image "logo.png"}}">` for recipient Hong
with a readable `logo.png`, the engine's URL filter replaces the
directive's non-URL-typed value inside the `src` attribute, so the
output is `Hello Hong, <img src="#ZgotmplZ">` and contains no `cid:`
reference at all — refuting the claimed `<img src="cid:H(logo.png)...">`
fragment. -/
theorem C5_scenario_url_filter_counterexample :
    (renderTemplate c5store c5fs "default.html" c5ctx).map (fun r => r.1) =
      some "Hello Hong, <img src=\"#ZgotmplZ\">" ∧
    (renderTemplate c5store c5fs "default.html" c5ctx).map
        (fun r => strHasSub r.1 "cid:") = some false :=
  ⟨by decide, by decide⟩

/-- Claim C5 as amended: the scenario render yields HTML containing
`Hello Hong,` and an `<img>` tag whose src is `#ZgotmplZ` (the URL
filter of html/template replaces the directive's value in the `src`
attribute), the render succeeds, and the attachment list has length
exactly one, with filename H(logo.png).png and Content-ID header
<H(logo.png).png>, where H is the embedded SHA3-512 hex digest. -/
theorem C5_default_template_scenario_amended :
    (renderTemplate c5store c5fs "default.html" c5ctx).map (fun r =>
        (strHasSub r.1 "Hello Hong,",
         strHasSub r.1 "<img src=\"#ZgotmplZ\">",
         r.2.1.length,
         r.2.1.map Attachment.filename,
         r.2.1.map Attachment.contentID,
         r.2.2)) =
      some (true, true, 1, [hashString "logo.png" ++ ".png"],
            ["<" ++ hashString "logo.png" ++ ".png>"], none) := by
  decide

/-- Claim C6: a missing or unreadable image never fails the render: each
directive returns a placeholder fragment and appends no attachment, and a
render of a template around such a directive succeeds with the
placeholder in the output and an empty attachment list. -/
theorem C6_missing_image_graceful :
    ∀ (store : TStore) (fs : ImageFS) (ref name pre post w h : String) (ctx : Ctx),
      (fs ref = FileResult.missing →
        imageDirective fs ref = some ("Image not found: " ++ ref, none) ∧
        imageWithSizeDirective fs ref w h =
          some ("Image not found: " ++ ref, none)) ∧
      (fs ref = FileResult.unreadable →
        imageDirective fs ref = some ("Failed to read image: " ++ ref, none) ∧
        imageWithSizeDirective fs ref w h =
          some ("Failed to read image: " ++ ref, none)) ∧
      (fs ref = FileResult.missing →
        store name = some [Node.text pre, Node.image ref, Node.text post] →
        renderTemplate store fs name ctx =
          some (pre ++ ("Image not found: " ++ ref) ++ post, [], none)) ∧
      (fs ref = FileResult.missing →
        store name = some [Node.text pre, Node.imageWithSize ref w h, Node.text post] →
        renderTemplate store fs name ctx =
          some (pre ++ ("Image not found: " ++ ref) ++ post, [], none)) := by
  intro store fs ref name pre post w h ctx
  refine ⟨?_, ?_, ?_, ?_⟩
  · intro hm
    exact ⟨by simp [imageDirective, hm], by simp [imageWithSizeDirective, hm]⟩
  · intro hu
    exact ⟨by simp [imageDirective, hu], by simp [imageWithSizeDirective, hu]⟩
  · intro hm hstore
    simp [renderTemplate, hstore, execNodes, imageDirective, hm,
      str_empty_append, str_append_assoc]
  · intro hm hstore
    simp [renderTemplate, hstore, execNodes, imageWithSizeDirective, hm,
      str_empty_append, str_append_assoc]

/-- Witness for C6 at concrete inputs. -/
theorem C6_missing_image_graceful_witness :
    imageDirective trivFS "pic.png" = some ("Image not found: pic.png", none) ∧
    imageWithSizeDirective unreadableFS "pic.png" "10" "20" =
      some ("Failed to read image: pic.png", none) ∧
    renderTemplate c6store trivFS "m" c8ctx =
      some ("A" ++ ("Image not found: pic.png") ++ "B", [], none) :=
  ⟨((C6_missing_image_graceful c6store trivFS "pic.png" "m" "A" "B" "10" "20"
      c8ctx).1 (by decide)).1,
   ((C6_missing_image_graceful c6store unreadableFS "pic.png" "m" "A" "B" "10" "20"
      c8ctx).2.1 (by decide)).2,
   (C6_missing_image_graceful c6store trivFS "pic.png" "m" "A" "B" "10" "20"
      c8ctx).2.2.1 (by decide) (by decide)⟩

/-- Claim C7: a parse failure in `LoadTemplate` returns the error and
leaves the whole template map unchanged; the map is mutated only when
parsing succeeds. -/
theorem C7_load_parse_failure_preserves_store :
    ∀ (store : TStore) (name filename e : String),
      loadTemplate store name filename (Except.error e) =
        (store, some ("failed to parse template file " ++ filename ++ ": " ++ e)) ∧
      ∀ parsed, (loadTemplate store name filename parsed).1 = store ∨
        ∃ t, parsed = Except.ok t := by
  intro store name filename e
  refine ⟨rfl, ?_⟩
  intro parsed
  cases parsed with
  | error e2 => exact Or.inl rfl
  | ok t => exact Or.inr ⟨t, rfl⟩

/-- Claim C8: `RenderTemplate` returns the not-found error for an absent
name, and on execution failure it returns the wrapped error with empty
HTML and an empty attachment list — discarding any attachments the image
directives had already appended. -/
theorem C8_render_failure_discards_output :
    ∀ (store : TStore) (fs : ImageFS) (name : String) (ctx : Ctx),
      (store name = none →
        renderTemplate store fs name ctx =
          some ("", [], some (RenderErr.notFound name))) ∧
      (∀ nodes buf atts, store name = some nodes →
        execNodes fs ctx nodes "" [] = some (buf, atts, true) →
        renderTemplate store fs name ctx =
          some ("", [], some (RenderErr.execFailed name))) := by
  intro store fs name ctx
  constructor
  · intro h
    simp [renderTemplate, h]
  · intro nodes buf atts h1 h2
    simp [renderTemplate, h1, h2]

/-- Witness for C8: a lookup miss, and a template that appends one
attachment before failing — the render returns empty HTML and an empty
attachment list. -/
theorem C8_render_failure_discards_output_witness :
    renderTemplate c8store c8fs "absent" c8ctx =
      some ("", [], some (RenderErr.notFound "absent")) ∧
    renderTemplate c8store c8fs "d" c8ctx =
      some ("", [], some (RenderErr.execFailed "d")) :=
  ⟨(C8_render_failure_discards_output c8store c8fs "absent" c8ctx).1 (by decide),
   (C8_render_failure_discards_output c8store c8fs "d" c8ctx).2
     [Node.image "logo.png", Node.failingAction]
     (imgFragment (hashString "logo.png" ++ ".png"))
     [{ filename := hashString "logo.png" ++ ".png", content := [1],
        htmlRelated := true, contentType := "image/png",
        contentID := "<" ++ (hashString "logo.png" ++ ".png") ++ ">" }]
     (by decide) (by decide)⟩

/-- Claim C9: the email endpoint returns 400 exactly when the template
name, the subject, or the recipient list is empty; otherwise it returns
the accepted-count message for the full recipient list, and the response
does not depend on the template store, the image directory, the
premailer, the transport, or the year — it is produced without waiting
for rendering or delivery. -/
theorem C9_email_endpoint_accepts :
    ∀ (store : TStore) (fs : ImageFS) (pm : String → PremailerOutcome)
      (send : String → Nat → Bool) (year : Nat) (req : EmailRequest),
      ((req.template = "" ∨ req.subject = "" ∨ req.recipient = []) →
        (emailEndpoint store fs pm send year req).1 =
          HandlerResp.badRequest "필수 필드가 누락되었습니다.") ∧
      (req.template ≠ "" → req.subject ≠ "" → req.recipient ≠ [] →
        (emailEndpoint store fs pm send year req).1 =
          HandlerResp.okMessage (emailAccepted req.recipient.length)) ∧
      (∀ (store' : TStore) (fs' : ImageFS) (pm' : String → PremailerOutcome)
        (send' : String → Nat → Bool) (year' : Nat),
        (emailEndpoint store fs pm send year req).1 =
          (emailEndpoint store' fs' pm' send' year' req).1) := by
  intro store fs pm send year req
  refine ⟨?_, ?_, ?_⟩
  · intro h
    simp [emailEndpoint, h]
  · intro h1 h2 h3
    have hc : ¬(req.template = "" ∨ req.subject = "" ∨ req.recipient = []) := by
      push_neg
      exact ⟨h1, h2, h3⟩
    simp [emailEndpoint, hc]
  · intro store' fs' pm' send' year'
    by_cases hc : req.template = "" ∨ req.subject = "" ∨ req.recipient = [] <;>
      simp [emailEndpoint, hc]

/-- Witness for C9 on concrete requests. -/
theorem C9_email_endpoint_accepts_witness :
    (emailEndpoint trivStore trivFS trivPM trivSend 2025
        { template := "", subject := "subj", recipient := [] }).1 =
      HandlerResp.badRequest "필수 필드가 누락되었습니다." ∧
    (emailEndpoint trivStore trivFS trivPM trivSend 2025
        { template := "t", subject := "s", recipient := [oneRec] }).1 =
      HandlerResp.okMessage (emailAccepted 1) :=
  ⟨(C9_email_endpoint_accepts trivStore trivFS trivPM trivSend 2025
      { template := "", subject := "subj", recipient := [] }).1 (Or.inl rfl),
   (C9_email_endpoint_accepts trivStore trivFS trivPM trivSend 2025
      { template := "t", subject := "s", recipient := [oneRec] }).2.1
     (by decide) (by decide) (by decide)⟩

/-! ## Directive output shape lemmas (for C1 and C10) -/

theorem goSliceFrom1_empty : goSliceFrom1 "" = none :=
  rfl

theorem str_append_cancel_mid {a w w' e : String}
    (h : a ++ w ++ e = a ++ w' ++ e) : w = w' := by
  have hd := congrArg String.data h
  simp only [str_data_append] at hd
  exact str_ext (List.append_cancel_left (List.append_cancel_right hd))

theorem hashDash_clean (s : String) :
    noDotSlash ((hashString s).data ++ ['-']) := by
  intro c hc
  rcases List.mem_append.mp hc with h | h
  · exact hashString_clean s c h
  · simp only [List.mem_singleton] at h
    subst h
    exact ⟨by decide, by decide⟩

/-- The `imageWithSize` directive on a readable reference with a proper
extension: the attachment name is the hash of the reference, a hyphen,
the width, and the extension. -/
theorem imageWithSize_produces (fs : ImageFS) (ref w h : String)
    (bytes : List Nat) (hc : fs ref = FileResult.content bytes)
    {t : List Char} (hext : goExtChars ref.data = '.' :: t)
    (hclean : noDotSlash t) :
    imageWithSizeDirective fs ref w h =
      some (imgFragmentSized (hashString ref ++ "-" ++ w ++ goExt ref) w h,
        some { filename := hashString ref ++ "-" ++ w ++ goExt ref,
               content := bytes, htmlRelated := true,
               contentType := "image/" ++ (⟨t⟩ : String),
               contentID :=
                 "<" ++ (hashString ref ++ "-" ++ w ++ goExt ref) ++ ">" }) := by
  have hgext : goExt ref = ⟨'.' :: t⟩ := str_ext hext
  have hsrcdata : (hashString ref ++ "-" ++ w ++ goExt ref).data
      = (((hashString ref).data ++ ['-']) ++ w.data) ++ ('.' :: t) := by
    rw [hgext]
    simp only [str_data_append, str_data_mk, str_dash_data]
  have hsrcext : goExt (hashString ref ++ "-" ++ w ++ goExt ref) = ⟨'.' :: t⟩ :=
    goExt_eq_of_data (by rw [hsrcdata]; exact goExtChars_append_ext _ hclean)
  have hslice :
      goSliceFrom1 (goExt (hashString ref ++ "-" ++ w ++ goExt ref)) =
        some ⟨t⟩ := by
    rw [hsrcext]
    rfl
  simp [imageWithSizeDirective, hc, hslice]

/-- The `image` directive on a readable reference with a proper extension:
the attachment name is the hash of the reference followed by the
extension. -/
theorem imageDirective_produces (fs : ImageFS) (ref : String)
    (bytes : List Nat) (hc : fs ref = FileResult.content bytes)
    {t : List Char} (hext : goExtChars ref.data = '.' :: t)
    (hclean : noDotSlash t) :
    imageDirective fs ref =
      some (imgFragment (hashString ref ++ goExt ref),
        some { filename := hashString ref ++ goExt ref,
               content := bytes, htmlRelated := true,
               contentType := "image/" ++ (⟨t⟩ : String),
               contentID := "<" ++ (hashString ref ++ goExt ref) ++ ">" }) := by
  have hgext : goExt ref = ⟨'.' :: t⟩ := str_ext hext
  have hsrcdata : (hashString ref ++ goExt ref).data
      = (hashString ref).data ++ ('.' :: t) := by
    rw [hgext]
    simp only [str_data_append, str_data_mk]
  have hsrcext : goExt (hashString ref ++ goExt ref) = ⟨'.' :: t⟩ :=
    goExt_eq_of_data (by rw [hsrcdata]; exact goExtChars_append_ext _ hclean)
  have hslice :
      goSliceFrom1 (goExt (hashString ref ++ goExt ref)) = some ⟨t⟩ := by
    rw [hsrcext]
    rfl
  simp [imageDirective, hc, hslice]

/-- The `image` directive panics (slice out of range) on a readable
reference without an extension. -/
theorem imageDirective_noext_panics (fs : ImageFS) (ref : String)
    (bytes : List Nat) (hc : fs ref = FileResult.content bytes)
    (hx : goExt ref = "") : imageDirective fs ref = none := by
  have hdata : (hashString ref ++ goExt ref).data
      = (hashString ref).data ++ ([] : List Char) := by
    rw [hx]
    simp only [str_data_append, str_empty_data]
  have hsrc : goExt (hashString ref ++ goExt ref) = "" :=
    goExt_eq_empty_of_data (by
      rw [hdata, List.append_nil]
      exact foldl_extStep_nil (hashString_clean ref))
  have hslice : goSliceFrom1 (goExt (hashString ref ++ goExt ref)) = none := by
    rw [hsrc]
    rfl
  simp [imageDirective, hc, hslice]

/-- The `imageWithSize` directive on an extensionless readable reference
panics exactly when the width string contributes no extension of its own
(the final name is hash-width and `filepath.Ext` scans the width). -/
theorem imageWithSize_noext (fs : ImageFS) (ref w h : String)
    (bytes : List Nat) (hc : fs ref = FileResult.content bytes)
    (hx : goExt ref = "") :
    (imageWithSizeDirective fs ref w h = none ↔ goExt w = "") := by
  have hdata : (hashString ref ++ "-" ++ w ++ goExt ref).data
      = ((((hashString ref).data ++ ['-']) ++ w.data) ++ ([] : List Char)) := by
    rw [hx]
    simp only [str_data_append, str_dash_data, str_empty_data]
  have hsrc : goExt (hashString ref ++ "-" ++ w ++ goExt ref) = goExt w :=
    goExt_congr_data (by
      rw [hdata, List.append_nil]
      exact goExtChars_clean_append (hashDash_clean ref) w.data)
  have key : imageWithSizeDirective fs ref w h = none ↔
      goSliceFrom1 (goExt (hashString ref ++ "-" ++ w ++ goExt ref)) = none := by
    simp only [imageWithSizeDirective, hc]
    cases hgs : goSliceFrom1 (goExt (hashString ref ++ "-" ++ w ++ goExt ref)) with
    | none => simp
    | some s => simp
  rw [key, hsrc, goSliceFrom1_none_iff]

/-! ## Claim C1 -/

/-- Claim C1 counterexample: for ref `logo.png` and width `100`, the
content identifier the code produces is the digest of `logo.png` alone
followed by `-100.png`, which differs from the digest of the
concatenation `logo.png100` followed by `.png` that the claim
describes — the width is not part of the hash input. -/
theorem C1_width_outside_digest_counterexample :
    sizedAttachmentFilename (fun _ => FileResult.content [0]) "logo.png" "100" "50" =
      some "75485c7964b0bbc68cdc8ea5129001d3c4df9ec62280366ff381271bb87c0e3e0c595eab6bbe976b5ca615ce67b0776e173ea7bf9f509e1b85ef171ae0c90473-100.png" ∧
    claimContentIDWithSize "logo.png" "100" =
      "c16a704de116d9546ee9dfc4ec8c0309b4940448e93eb2513e580d63e67644b0c22b2f0b4fccad2c12264ad673fad1d7e02725cf84de3ef8d494a47f097197f1.png" ∧
    sizedAttachmentFilename (fun _ => FileResult.content [0]) "logo.png" "100" "50" ≠
      some (claimContentIDWithSize "logo.png" "100") :=
  ⟨by decide, by decide, by decide⟩

/-- Claim C1 as amended: the content identifier produced by the
`imageWithSize` directive is the hexadecimal SHA3-512 digest of the UTF-8
bytes of the reference alone, followed by a literal hyphen, the width
string, and the original file extension; the width is not hashed but
appears verbatim outside the digest, and distinct widths still yield
distinct content identifiers for the same reference. -/
theorem C1_content_identifier_amended :
    ∀ (fs : ImageFS) (ref w h w' h' : String) (bytes : List Nat),
      fs ref = FileResult.content bytes → goExt ref ≠ "" →
      sizedAttachmentFilename fs ref w h =
        some (hashString ref ++ "-" ++ w ++ goExt ref) ∧
      (w ≠ w' →
        sizedAttachmentFilename fs ref w h ≠
          sizedAttachmentFilename fs ref w' h') := by
  intro fs ref w h w' h' bytes hc hx
  rcases goExtChars_shape ref.data with hnil | ⟨t, hext, hclean⟩
  · exact absurd ((goExt_empty_iff ref).mpr hnil) hx
  · have fn : ∀ (v u : String), sizedAttachmentFilename fs ref v u =
        some (hashString ref ++ "-" ++ v ++ goExt ref) := by
      intro v u
      unfold sizedAttachmentFilename
      rw [imageWithSize_produces fs ref v u bytes hc hext hclean]
    refine ⟨fn w h, ?_⟩
    intro hww heq
    rw [fn w h, fn w' h'] at heq
    exact hww (str_append_cancel_mid (Option.some.inj heq))

/-- Witness for the amended C1 at `logo.png` with widths 100 and 200. -/
theorem C1_content_identifier_amended_witness :
    sizedAttachmentFilename (fun _ => FileResult.content [0]) "logo.png" "100" "50" =
      some (hashString "logo.png" ++ "-" ++ "100" ++ goExt "logo.png") ∧
    sizedAttachmentFilename (fun _ => FileResult.content [0]) "logo.png" "100" "50" ≠
      sizedAttachmentFilename (fun _ => FileResult.content [0]) "logo.png" "200" "50" :=
  ⟨(C1_content_identifier_amended (fun _ => FileResult.content [0]) "logo.png"
      "100" "50" "200" "50" [0] rfl (by decide)).1,
   (C1_content_identifier_amended (fun _ => FileResult.content [0]) "logo.png"
      "100" "50" "200" "50" [0] rfl (by decide)).2 (by decide)⟩

/-! ## Claim C4 -/

/-- Claim C4 counterexample: the image-delete (and image-serve) handler
accepts the name `../secret`, which contains a path separator, and hands
the filesystem a path outside the image directory — no 4xx rejection
happens before the delete. -/
theorem C4_image_handlers_traversal_counterexample :
    hasSlash "../secret" = true ∧
    imageNameOf "../secret" = some "../secret" ∧
    imageDeletePath "/srv/images" "../secret" = some "/srv/secret" ∧
    imageServePath "/srv/images" "../secret" = some "/srv/secret" ∧
    beginsWith ("/srv/images/").data ("/srv/secret").data = false := by
  refine ⟨by decide, by decide, by decide, by decide, by decide⟩

/-- Claim C4 as amended: the template handler rejects (with a 4xx, before
any filesystem operation) every name whose cleaned form still contains a
path separator, but the image serve and delete handlers only reject the
empty name, `.` and `/` after cleaning, so a traversal name such as
`../secret` passes their check and the filesystem operation runs on a
path outside the base directory. -/
theorem C4_sanitization_amended :
    (∀ raw : String, hasSlash (pathClean raw) = true →
      templateNameOf raw = none) ∧
    imageNameOf "../secret" = some "../secret" ∧
    imageDeletePath "/srv/images" "../secret" = some "/srv/secret" ∧
    beginsWith ("/srv/images/").data ("/srv/secret").data = false := by
  refine ⟨?_, by decide, by decide, by decide⟩
  intro raw hsl
  unfold templateNameOf
  by_cases h1 : pathClean raw = "." ∨ pathClean raw = "/" ∨ pathClean raw = ""
  · simp [h1]
  · simp [h1, hsl]

/-- Witness for the amended C4: the template handler rejects `../x`. -/
theorem C4_sanitization_amended_witness :
    hasSlash (pathClean "../x") = true ∧ templateNameOf "../x" = none :=
  ⟨by decide, C4_sanitization_amended.1 "../x" (by decide)⟩

/-! ## Claim C10 -/

/-- Claim C10 counterexample: for the extensionless readable reference
`noext` and width `1.5`, the `imageWithSize` directive does not panic —
`filepath.Ext` finds the dot inside the width — and produces content type
`image/5`, refuting the claim that both directives panic for every
extensionless reference. -/
theorem C10_noext_counterexample :
    goExt "noext" = "" ∧
    (imageWithSizeDirective (fun _ => FileResult.content [0]) "noext" "1.5" "20").isSome = true ∧
    sizedAttachmentContentType (fun _ => FileResult.content [0]) "noext" "1.5" "20" =
      some "image/5" :=
  ⟨by decide, by decide, by decide⟩

/-- Claim C10 as amended: for a readable extensionless reference the
`image` directive always panics, while `imageWithSize` panics exactly
when the width string yields no extension either; for a reference whose
extension is nonempty, both directives produce an attachment whose
content type is `image/` followed by the extension without its leading
dot. -/
theorem C10_extension_panic_amended :
    ∀ (fs : ImageFS) (ref w h : String) (bytes : List Nat),
      fs ref = FileResult.content bytes →
      (goExt ref = "" →
        imageDirective fs ref = none ∧
        (imageWithSizeDirective fs ref w h = none ↔ goExt w = "")) ∧
      (∀ sub, goSliceFrom1 (goExt ref) = some sub →
        imageAttachmentContentType fs ref = some ("image/" ++ sub) ∧
        sizedAttachmentContentType fs ref w h = some ("image/" ++ sub)) := by
  intro fs ref w h bytes hc
  constructor
  · intro hx
    exact ⟨imageDirective_noext_panics fs ref bytes hc hx,
           imageWithSize_noext fs ref w h bytes hc hx⟩
  · intro sub hsub
    rcases goExtChars_shape ref.data with hnil | ⟨t, hext, hclean⟩
    · rw [(goExt_empty_iff ref).mpr hnil, goSliceFrom1_empty] at hsub
      exact Option.noConfusion hsub
    · have hgext : goExt ref = ⟨'.' :: t⟩ := str_ext hext
      have hsub' : sub = ⟨t⟩ := by
        rw [hgext] at hsub
        have : (some (⟨t⟩ : String) : Option String) = some sub := by
          rw [← hsub]
          rfl
        exact (Option.some.inj this).symm
      subst hsub'
      constructor
      · unfold imageAttachmentContentType
        rw [imageDirective_produces fs ref bytes hc hext hclean]
      · unfold sizedAttachmentContentType
        rw [imageWithSize_produces fs ref w h bytes hc hext hclean]

/-- Witness for the amended C10: `noext` makes `image` panic and
`imageWithSize` panic iff the width has no dot; `a.png` gives content
type `image/png` in both directives. -/
theorem C10_extension_panic_amended_witness :
    imageDirective (fun _ => FileResult.content [0]) "noext" = none ∧
    (imageWithSizeDirective (fun _ => FileResult.content [0]) "noext" "w0" "h0" = none ↔
      goExt "w0" = "") ∧
    imageAttachmentContentType (fun _ => FileResult.content [0]) "a.png" =
      some ("image/" ++ "png") ∧
    sizedAttachmentContentType (fun _ => FileResult.content [0]) "a.png" "30" "40" =
      some ("image/" ++ "png") :=
  ⟨((C10_extension_panic_amended (fun _ => FileResult.content [0]) "noext" "w0" "h0"
      [0] rfl).1 (by decide)).1,
   ((C10_extension_panic_amended (fun _ => FileResult.content [0]) "noext" "w0" "h0"
      [0] rfl).1 (by decide)).2,
   ((C10_extension_panic_amended (fun _ => FileResult.content [0]) "a.png" "30" "40"
      [0] rfl).2 "png" (by decide)).1,
   ((C10_extension_panic_amended (fun _ => FileResult.content [0]) "a.png" "30" "40"
      [0] rfl).2 "png" (by decide)).2⟩

end Mailer
